import Mathlib

/-!
Verification of the finance-blog backend controllers.

This development is a shallow embedding of the server controllers
(cron.controller.ts, generation.controller.ts, category.controller.ts,
comment.controller.ts) over an explicit database state.  Mongo ObjectIds
are modelled as natural numbers; absent / invalid request values are
modelled with Option; Date values are epoch instants (Nat).  A document
save by _id is modelled as a map over the collection that rewrites the
record carrying that id, and deleteOne / deleteMany are modelled as
filters on the id / query fields (_id is the unique primary key).
The external generation service (lib/openai.ts generateBlogPost) catches
all of its own errors and returns null on any failure, so it is modelled
as an oracle returning Option PostData.
-/

namespace FinanceBlog

/-- Status enum of generation-schedule.model: pending | completed | failed. -/
inductive SStatus
  | pending
  | completed
  | failed
deriving DecidableEq, Repr

/-- Topic lifecycle status: pending | approved | generated | rejected. -/
inductive TopicStatus
  | pending
  | approved
  | generated
  | rejected
deriving DecidableEq, Repr

/-- A user document (user.model): only the fields the verified controllers read. -/
structure User where
  id : Nat
  isAdmin : Bool
deriving DecidableEq, Repr

/-- A category document (category.model). -/
structure Category where
  id : Nat
  name : String
  slug : String
deriving DecidableEq, Repr

/-- A topic document (topic.model). -/
structure Topic where
  id : Nat
  title : String
  description : String
  categoryId : Nat
  status : TopicStatus
  scheduledFor : Option Nat
deriving DecidableEq, Repr

/-- A post document (post.model). -/
structure Post where
  id : Nat
  title : String
  slug : String
  excerpt : String
  content : String
  coverImage : String
  publishedAt : Nat
  readingTime : Nat
  authorId : Nat
  categoryId : Nat
  isGenerated : Bool
  relatedAssets : List String
  tags : List String
deriving DecidableEq, Repr

/-- A comment document (comment.model). -/
structure Comment where
  id : Nat
  content : String
  postId : Nat
  parentId : Option Nat
  authorName : String
  authorEmail : String
  isApproved : Bool
  userId : Option Nat
  createdAt : Nat
deriving DecidableEq, Repr

/-- A GenerationSchedule document (generation-schedule.model). -/
structure Schedule where
  id : Nat
  topicId : Option Nat
  title : String
  description : String
  categoryId : Nat
  authorId : Nat
  scheduledFor : Nat
  status : SStatus
  generatedPostId : Option Nat
  errorMessage : Option String
deriving DecidableEq, Repr

/-- The persistent store: one list per collection, plus the next fresh _id. -/
structure DB where
  users : List User
  categories : List Category
  topics : List Topic
  posts : List Post
  comments : List Comment
  schedules : List Schedule
  nextId : Nat
deriving DecidableEq, Repr

/-- Save of a schedule document by its _id: rewrite the record carrying the id. -/
def updateScheduleById (i : Nat) (f : Schedule → Schedule) (l : List Schedule) : List Schedule :=
  l.map (fun s => if s.id = i then f s else s)

/-- Save of a topic document by its _id: rewrite the record carrying the id. -/
def updateTopicById (i : Nat) (f : Topic → Topic) (l : List Topic) : List Topic :=
  l.map (fun t => if t.id = i then f t else t)

/-! ### cron.controller.ts -/

/-- The generation result produced by generateBlogPost (an InsertPost; the cron
controller overrides authorId, categoryId and isGenerated itself). -/
structure PostData where
  title : String
  slug : String
  excerpt : String
  content : String
  coverImage : String
  publishedAt : Nat
  readingTime : Nat
  relatedAssets : List String
  tags : List String
deriving DecidableEq, Repr

/-- The promptData object assembled in the cron loop, together with the assets
and author id that are passed to generateBlogPost alongside it.  The temporary
ObjectId, usageCount and timestamps of the source object are bookkeeping nonces
that the oracle never observes and are omitted. -/
structure GenRequest where
  title : String
  promptTemplate : String
  categoryId : Nat
  relatedAssets : List String
  authorId : Nat
deriving DecidableEq, Repr

/-- The prompt template string interpolated from the schedule title and
description in the cron controller. -/
def promptTemplateFor (s : Schedule) : String :=
  "Write a comprehensive blog post about " ++ s.title ++ ". \n" ++
  "The post should cover the following aspects:\n" ++
  "- " ++ s.description ++ "\n" ++
  "- Focus on \x7b\x7bcategory\x7d\x7d industry insights\n" ++
  "- Include up-to-date information\n" ++
  "- Provide actionable advice for readers"

/-- One entry of the results array pushed by the cron loop. -/
inductive ResultEntry
  | success (scheduleId : Nat) (postId : Nat) (title : String)
  | failed (scheduleId : Nat) (error : String)
deriving DecidableEq, Repr

/-- The schedule id recorded in a result entry. -/
def ResultEntry.scheduleId : ResultEntry → Nat
  | .success i _ _ => i
  | .failed i _ => i

/-- verifySecret: req.headers[x-cron-secret] === process.env.CRON_SECRET.
Both sides are undefined-able strings; JavaScript === on two undefined
values is true, which the Option equality reproduces exactly. -/
def verifySecret (header : Option String) (cronSecret : Option String) : Bool :=
  header == cronSecret

/-- Author resolution in the cron loop: use the populated schedule author when
that user still exists, else fall back to the first admin user, else throw. -/
def resolveAuthor (db : DB) (s : Schedule) : Except String Nat :=
  match db.users.find? (fun u => u.id == s.authorId) with
  | some u => .ok u.id
  | none =>
    match db.users.find? (fun u => u.isAdmin) with
    | some adminUser => .ok adminUser.id
    | none => .error "No admin user found to assign as author"

/-- The data available when steps a-d of processing one schedule all succeed. -/
structure GenSuccess where
  authorId : Nat
  categoryId : Nat
  postData : PostData
deriving DecidableEq, Repr

/-- Steps a-d of the per-schedule try block: resolve the author, resolve the
category, build the prompt, invoke the generation service; the first failure
is the thrown error message that the catch block will record. -/
def attemptSchedule (gen : GenRequest → Option PostData) (db : DB) (s : Schedule) :
    Except String GenSuccess :=
  match resolveAuthor db s with
  | .error e => .error e
  | .ok authorId =>
    match db.categories.find? (fun c => c.id == s.categoryId) with
    | none => .error "Category not found"
    | some category =>
      let promptData : GenRequest :=
        { title := s.title
          promptTemplate := promptTemplateFor s
          categoryId := category.id
          -- the GenerationSchedule schema has no relatedAssets path, so the
          -- source expression schedule.relatedAssets || [] is always []
          relatedAssets := []
          authorId := authorId }
      match gen promptData with
      | none => .error "Failed to generate post content"
      | some postData => .ok { authorId := authorId, categoryId := category.id, postData := postData }

/-- The new Post document built from the generation result in the cron loop. -/
def mkPost (postId : Nat) (pd : PostData) (authorId : Nat) (categoryId : Nat) : Post :=
  { id := postId
    title := pd.title
    slug := pd.slug
    excerpt := pd.excerpt
    content := pd.content
    coverImage := pd.coverImage
    publishedAt := pd.publishedAt
    readingTime := pd.readingTime
    authorId := authorId
    categoryId := categoryId
    isGenerated := true
    relatedAssets := pd.relatedAssets
    tags := pd.tags }

/-- The body of the per-schedule loop iteration: on success save the new post,
mark the schedule completed and the linked topic generated; on any error mark
the schedule failed with the captured message.  Returns the new store and the
result entry pushed for this schedule. -/
def processSchedule (gen : GenRequest → Option PostData) (db : DB) (s : Schedule) :
    DB × ResultEntry :=
  match attemptSchedule gen db s with
  | .ok r =>
    let savedPost := mkPost db.nextId r.postData r.authorId r.categoryId
    let db1 := { db with posts := db.posts ++ [savedPost], nextId := db.nextId + 1 }
    let db2 := { db1 with schedules := updateScheduleById s.id (fun sc => { sc with status := SStatus.completed, generatedPostId := some savedPost.id }) db1.schedules }
    let db3 := match s.topicId with
      | some tid => { db2 with topics := updateTopicById tid (fun t => { t with status := TopicStatus.generated }) db2.topics }
      | none => db2
    (db3, .success s.id savedPost.id savedPost.title)
  | .error msg =>
    ({ db with schedules := updateScheduleById s.id (fun sc => { sc with status := SStatus.failed, errorMessage := some msg }) db.schedules },
     .failed s.id msg)

/-- Accumulated outcome of the cron loop. -/
structure LoopOut where
  db : DB
  successCount : Nat
  failureCount : Nat
  results : List ResultEntry
deriving DecidableEq, Repr

/-- The for-loop over the due schedules: each iteration runs processSchedule on
the current store, bumps the matching counter and pushes its result entry. -/
def cronLoop (gen : GenRequest → Option PostData) : DB → List Schedule → LoopOut
  | db, [] => { db := db, successCount := 0, failureCount := 0, results := [] }
  | db, s :: rest =>
    match processSchedule gen db s with
    | (db1, ResultEntry.success i p t) =>
      let recur := cronLoop gen db1 rest
      { recur with successCount := recur.successCount + 1,
                   results := ResultEntry.success i p t :: recur.results }
    | (db1, ResultEntry.failed i e) =>
      let recur := cronLoop gen db1 rest
      { recur with failureCount := recur.failureCount + 1,
                   results := ResultEntry.failed i e :: recur.results }

/-- The due-schedule query: status pending and scheduledFor <= now. -/
def dueSchedules (db : DB) (now : Nat) : List Schedule :=
  db.schedules.filter (fun s => decide (s.status = SStatus.pending) && decide (s.scheduledFor ≤ now))

/-- The JSON responses of the cron endpoint. -/
inductive CronResponse
  | unauthorized
  | noPending (processed : Nat)
  | summary (processed : Nat) (success : Nat) (failure : Nat) (results : List ResultEntry)
deriving DecidableEq, Repr

/-- The results array carried by a response (empty outside the summary case). -/
def CronResponse.resultList : CronResponse → List ResultEntry
  | .summary _ _ _ rs => rs
  | _ => []

/-- The processing body of dailyContentGeneration, after the secret gate. -/
def processDueSchedules (now : Nat) (gen : GenRequest → Option PostData) (db : DB) :
    CronResponse × DB :=
  let pendingSchedules := dueSchedules db now
  if pendingSchedules.length = 0 then (.noPending 0, db)
  else
    let out := cronLoop gen db pendingSchedules
    (.summary pendingSchedules.length out.successCount out.failureCount out.results, out.db)

/-- dailyContentGeneration: gate on the shared secret, then process the due
pending schedules. -/
def dailyContentGeneration (header : Option String) (cronSecret : Option String)
    (now : Nat) (gen : GenRequest → Option PostData) (db : DB) : CronResponse × DB :=
  if verifySecret header cronSecret then processDueSchedules now gen db
  else (.unauthorized, db)

/-! ### generation.controller.ts -/

/-- JSON responses of scheduleGeneration. -/
inductive SchedResponse
  | notAdmin
  | invalidCategoryId
  | categoryNotFound
  | invalidDateFormat
  | dateNotFuture
  | invalidTopicId
  | topicNotFound
  | created (schedule : Schedule)
deriving DecidableEq, Repr

/-- The request body of scheduleGeneration.  topicId: none models an absent or
falsy field, some none a present value that is not a valid ObjectId, some
(some i) a valid id.  categoryId: none models an invalid ObjectId.
scheduledFor is the outcome of new Date(...): none when the value does not
parse (NaN), some t when it parses to instant t. -/
structure SchedRequest where
  topicId : Option (Option Nat)
  title : Option String
  description : Option String
  categoryId : Option Nat
  scheduledFor : Option Nat
deriving DecidableEq, Repr

/-- JavaScript v || d on an optional string: d when the field is absent or the
empty string (both falsy). -/
def strOr (v : Option String) (d : String) : String :=
  match v with
  | some s => if s = "" then d else s
  | none => d

/-- The GenerationSchedule.create call at the end of scheduleGeneration. -/
def createScheduleRecord (u : User) (topicId : Option Nat) (title : String)
    (description : String) (categoryId : Nat) (scheduledDate : Nat) (db : DB) :
    SchedResponse × DB :=
  let schedule : Schedule :=
    { id := db.nextId
      topicId := topicId
      title := title
      description := description
      categoryId := categoryId
      authorId := u.id
      scheduledFor := scheduledDate
      status := SStatus.pending
      generatedPostId := none
      errorMessage := none }
  (.created schedule, { db with schedules := db.schedules ++ [schedule], nextId := db.nextId + 1 })

/-- scheduleGeneration: admin gate, category validation, date validation,
optional topic approval, then creation of the pending schedule. -/
def scheduleGeneration (user : Option User) (req : SchedRequest) (now : Nat) (db : DB) :
    SchedResponse × DB :=
  match user with
  | none => (.notAdmin, db)
  | some u =>
    if !u.isAdmin then (.notAdmin, db)
    else
      match req.categoryId with
      | none => (.invalidCategoryId, db)
      | some categoryId =>
        match db.categories.find? (fun c => c.id == categoryId) with
        | none => (.categoryNotFound, db)
        | some _category =>
          match req.scheduledFor with
          | none => (.invalidDateFormat, db)
          | some scheduledDate =>
            if scheduledDate < now then (.dateNotFuture, db)
            else
              match req.topicId with
              | some none => (.invalidTopicId, db)
              | some (some topicId) =>
                match db.topics.find? (fun t => t.id == topicId) with
                | none => (.topicNotFound, db)
                | some topic =>
                  let db1 := { db with topics := updateTopicById topicId (fun t => { t with status := TopicStatus.approved, scheduledFor := some scheduledDate }) db.topics }
                  createScheduleRecord u (some topicId) (strOr req.title topic.title) (strOr req.description topic.description) categoryId scheduledDate db1
              | none =>
                createScheduleRecord u none (strOr req.title "Untitled") (strOr req.description "") categoryId scheduledDate db

/-- JSON responses of cancelScheduledGeneration. -/
inductive CancelResponse
  | notAdmin
  | invalidId
  | notFound
  | notPending
  | cancelled
deriving DecidableEq, Repr

/-- cancelScheduledGeneration: admin gate, id validation, 400 unless the
schedule is still pending, else reset the linked topic and delete the
schedule. -/
def cancelScheduledGeneration (user : Option User) (id : Option Nat) (db : DB) :
    CancelResponse × DB :=
  match user with
  | none => (.notAdmin, db)
  | some u =>
    if !u.isAdmin then (.notAdmin, db)
    else
      match id with
      | none => (.invalidId, db)
      | some i =>
        match db.schedules.find? (fun s => s.id == i) with
        | none => (.notFound, db)
        | some schedule =>
          if schedule.status ≠ SStatus.pending then (.notPending, db)
          else
            let db1 := match schedule.topicId with
              | some tid => { db with topics := updateTopicById tid (fun t => { t with status := TopicStatus.pending, scheduledFor := none }) db.topics }
              | none => db
            (.cancelled, { db1 with schedules := db1.schedules.filter (fun s => decide (s.id ≠ schedule.id)) })

/-! ### category.controller.ts -/

/-- JSON responses of deleteCategory. -/
inductive DeleteCategoryResponse
  | notAuthorized
  | invalidId
  | notFound
  | inUse (postCount : Nat)
  | removed
deriving DecidableEq, Repr

/-- deleteCategory: authentication gate (the handler checks only req.user, not
the admin flag), id validation, refusal while any post references the
category, else deletion. -/
def deleteCategory (user : Option User) (id : Option Nat) (db : DB) :
    DeleteCategoryResponse × DB :=
  match user with
  | none => (.notAuthorized, db)
  | some _ =>
    match id with
    | none => (.invalidId, db)
    | some i =>
      match db.categories.find? (fun c => c.id == i) with
      | none => (.notFound, db)
      | some category =>
        let postCount := (db.posts.filter (fun p => p.categoryId == category.id)).length
        if postCount > 0 then (.inUse postCount, db)
        else (.removed, { db with categories := db.categories.filter (fun c => decide (c.id ≠ category.id)) })

/-! ### comment.controller.ts -/

/-- JSON responses of createComment. -/
inductive CreateCommentResponse
  | invalidPostId
  | postNotFound
  | invalidParentId
  | parentNotFound
  | parentWrongPost
  | created (comment : Comment)
deriving DecidableEq, Repr

/-- The request body of createComment.  parentId: none models an absent or
falsy field, some none an invalid ObjectId, some (some i) a valid id. -/
structure CommentRequest where
  content : String
  authorName : String
  authorEmail : String
  parentId : Option (Option Nat)
deriving DecidableEq, Repr

/-- req.user?.isAdmin === true: the principal is authenticated and an admin. -/
def isAdminPrincipal (user : Option User) : Bool :=
  match user with
  | some u => u.isAdmin
  | none => false

/-- The Comment.create call of createComment. -/
def insertComment (user : Option User) (pid : Nat) (req : CommentRequest)
    (parentId : Option Nat) (now : Nat) (db : DB) : CreateCommentResponse × DB :=
  let comment : Comment :=
    { id := db.nextId
      content := req.content
      postId := pid
      parentId := parentId
      authorName := req.authorName
      authorEmail := req.authorEmail
      isApproved := isAdminPrincipal user
      userId := user.map (fun u => u.id)
      createdAt := now }
  (.created comment, { db with comments := db.comments ++ [comment], nextId := db.nextId + 1 })

/-- createComment: post existence, optional parent validation (the parent must
exist and belong to the same post), then creation; the comment is
auto-approved exactly when the principal is an authenticated admin. -/
def createComment (user : Option User) (postId : Option Nat) (req : CommentRequest)
    (now : Nat) (db : DB) : CreateCommentResponse × DB :=
  match postId with
  | none => (.invalidPostId, db)
  | some pid =>
    match db.posts.find? (fun p => p.id == pid) with
    | none => (.postNotFound, db)
    | some post =>
      match req.parentId with
      | some none => (.invalidParentId, db)
      | some (some parentId) =>
        match db.comments.find? (fun c => c.id == parentId) with
        | none => (.parentNotFound, db)
        | some parentComment =>
          if parentComment.postId ≠ post.id then (.parentWrongPost, db)
          else insertComment user pid req (some parentId) now db
      | none => insertComment user pid req none now db

/-- Stable insertion into a sorted list, the helper of sortBy. -/
def insertSorted (le : α → α → Bool) (x : α) : List α → List α
  | [] => [x]
  | y :: ys => if le x y then x :: y :: ys else y :: insertSorted le x ys

/-- The MongoDB sort on a key, modelled as a stable insertion sort with
respect to the given before-or-equal comparator. -/
def sortBy (le : α → α → Bool) : List α → List α
  | [] => []
  | x :: xs => insertSorted le x (sortBy le xs)

/-- One element of the getCommentsByPost payload: a top-level comment together
with its replies array. -/
structure CommentWithReplies where
  comment : Comment
  replies : List Comment
deriving DecidableEq, Repr

/-- JSON responses of getCommentsByPost. -/
inductive GetCommentsResponse
  | invalidPostId
  | postNotFound
  | ok (comments : List CommentWithReplies)
deriving DecidableEq, Repr

/-- getCommentsByPost: the approved top-level comments of the post sorted by
createdAt descending, each holding its approved replies sorted ascending. -/
def getCommentsByPost (postId : Option Nat) (db : DB) : GetCommentsResponse :=
  match postId with
  | none => .invalidPostId
  | some pid =>
    match db.posts.find? (fun p => p.id == pid) with
    | none => .postNotFound
    | some _post =>
      let comments := sortBy (fun a b => decide (b.createdAt ≤ a.createdAt)) (db.comments.filter (fun c => c.postId == pid && c.isApproved && decide (c.parentId = none)))
      .ok (comments.map (fun comment =>
        { comment := comment
          replies := sortBy (fun a b => decide (a.createdAt ≤ b.createdAt)) (db.comments.filter (fun r => r.postId == pid && decide (r.parentId = some comment.id) && r.isApproved)) }))

/-- JSON responses of deleteComment. -/
inductive DeleteCommentResponse
  | notAdmin
  | invalidId
  | notFound
  | removed
deriving DecidableEq, Repr

/-- deleteComment: admin gate, id validation, delete the comment, and when it
is a top-level comment also delete every comment whose parentId is its id. -/
def deleteComment (user : Option User) (id : Option Nat) (db : DB) :
    DeleteCommentResponse × DB :=
  match user with
  | none => (.notAdmin, db)
  | some u =>
    if !u.isAdmin then (.notAdmin, db)
    else
      match id with
      | none => (.invalidId, db)
      | some i =>
        match db.comments.find? (fun c => c.id == i) with
        | none => (.notFound, db)
        | some comment =>
          let afterDeleteOne := db.comments.filter (fun c => decide (c.id ≠ comment.id))
          let remaining := match comment.parentId with
            | none => afterDeleteOne.filter (fun c => decide (c.parentId ≠ some comment.id))
            | some _ => afterDeleteOne
          (.removed, { db with comments := remaining })

/-! ### Helper lemmas about the cron loop -/

lemma mem_updateScheduleById_of_ne {x : Schedule} {l : List Schedule} {i : Nat}
    (f : Schedule → Schedule) (hx : x ∈ l) (hne : x.id ≠ i) :
    x ∈ updateScheduleById i f l := by
  have h := List.mem_map_of_mem (fun s => if s.id = i then f s else s) hx
  simpa [updateScheduleById, hne] using h

lemma processSchedule_fst_schedules_mem (gen : GenRequest → Option PostData) (db : DB)
    (s : Schedule) {x : Schedule} (hx : x ∈ db.schedules) (hne : x.id ≠ s.id) :
    x ∈ (processSchedule gen db s).fst.schedules := by
  unfold processSchedule
  cases h : attemptSchedule gen db s with
  | error msg => simpa using mem_updateScheduleById_of_ne _ hx hne
  | ok r =>
    cases ht : s.topicId <;>
      simpa [ht] using mem_updateScheduleById_of_ne _ hx hne

lemma processSchedule_snd_scheduleId (gen : GenRequest → Option PostData) (db : DB)
    (s : Schedule) : ((processSchedule gen db s).snd).scheduleId = s.id := by
  unfold processSchedule
  cases h : attemptSchedule gen db s with
  | error msg => simp [ResultEntry.scheduleId]
  | ok r => cases ht : s.topicId <;> simp [ht, ResultEntry.scheduleId]

lemma cronLoop_cons_db (gen : GenRequest → Option PostData) (db : DB) (s : Schedule)
    (rest : List Schedule) :
    (cronLoop gen db (s :: rest)).db = (cronLoop gen (processSchedule gen db s).fst rest).db := by
  rcases h : processSchedule gen db s with ⟨db1, entry⟩
  cases entry <;> simp [cronLoop, h]

lemma cronLoop_cons_results (gen : GenRequest → Option PostData) (db : DB) (s : Schedule)
    (rest : List Schedule) :
    (cronLoop gen db (s :: rest)).results =
      (processSchedule gen db s).snd :: (cronLoop gen (processSchedule gen db s).fst rest).results := by
  rcases h : processSchedule gen db s with ⟨db1, entry⟩
  cases entry <;> simp [cronLoop, h]

lemma cronLoop_db_schedules_mem (gen : GenRequest → Option PostData) {x : Schedule} :
    ∀ (due : List Schedule) (db : DB), x ∈ db.schedules → (∀ d ∈ due, x.id ≠ d.id) →
      x ∈ (cronLoop gen db due).db.schedules := by
  intro due
  induction due with
  | nil => intro db hx _; simpa [cronLoop] using hx
  | cons s rest ih =>
    intro db hx hne
    have hstep : x ∈ (processSchedule gen db s).fst.schedules :=
      processSchedule_fst_schedules_mem gen db s hx (hne s (by simp))
    have hrec := ih (processSchedule gen db s).fst hstep (fun d hd => hne d (by simp [hd]))
    rw [cronLoop_cons_db]
    exact hrec

lemma cronLoop_results_length (gen : GenRequest → Option PostData) :
    ∀ (due : List Schedule) (db : DB), (cronLoop gen db due).results.length = due.length := by
  intro due
  induction due with
  | nil => intro db; simp [cronLoop]
  | cons s rest ih =>
    intro db
    rw [cronLoop_cons_results]
    simp [ih]

lemma cronLoop_counts (gen : GenRequest → Option PostData) :
    ∀ (due : List Schedule) (db : DB),
      (cronLoop gen db due).successCount + (cronLoop gen db due).failureCount = due.length := by
  intro due
  induction due with
  | nil => intro db; simp [cronLoop]
  | cons s rest ih =>
    intro db
    rcases h : processSchedule gen db s with ⟨db1, entry⟩
    cases entry <;> simp [cronLoop, h] <;>
      have := ih db1 <;> omega

lemma cronLoop_results_ids (gen : GenRequest → Option PostData) :
    ∀ (due : List Schedule) (db : DB), ∀ r ∈ (cronLoop gen db due).results,
      ∃ d ∈ due, r.scheduleId = d.id := by
  intro due
  induction due with
  | nil => intro db r hr; simp [cronLoop] at hr
  | cons s rest ih =>
    intro db r hr
    rw [cronLoop_cons_results, List.mem_cons] at hr
    rcases hr with rfl | hr
    · exact ⟨s, by simp, processSchedule_snd_scheduleId gen db s⟩
    · rcases ih (processSchedule gen db s).fst r hr with ⟨d, hd, hid⟩
      exact ⟨d, by simp [hd], hid⟩

lemma mem_dueSchedules {db : DB} {now : Nat} {s : Schedule} :
    s ∈ dueSchedules db now ↔ s ∈ db.schedules ∧ s.status = SStatus.pending ∧ s.scheduledFor ≤ now := by
  simp [dueSchedules, List.mem_filter, and_assoc]

lemma mem_insertSorted {α : Type} (le : α → α → Bool) (x a : α) :
    ∀ l : List α, a ∈ insertSorted le x l ↔ a = x ∨ a ∈ l := by
  intro l
  induction l with
  | nil => simp [insertSorted]
  | cons y ys ih =>
    by_cases hle : le x y
    · simp [insertSorted, hle]
    · simp [insertSorted, hle, ih]
      tauto

lemma mem_sortBy {α : Type} (le : α → α → Bool) (a : α) :
    ∀ l : List α, a ∈ sortBy le l ↔ a ∈ l := by
  intro l
  induction l with
  | nil => simp [sortBy]
  | cons x xs ih => simp [sortBy, mem_insertSorted, ih]

/-! ### Claim theorems -/

/-- Concrete store used as the C1 failing input: a single due pending schedule
and no admin user, with the CRON_SECRET environment variable unset and the
X-Cron-Secret header absent. -/
def cronBugDB : DB :=
  { users := []
    categories := []
    topics := []
    posts := []
    comments := []
    schedules := [{ id := 1, topicId := none, title := "BTC Outlook", description := "Price analysis",
                    categoryId := 5, authorId := 7, scheduledFor := 50, status := SStatus.pending,
                    generatedPostId := none, errorMessage := none }]
    nextId := 2 }

/-- C1: the claim says a cron request whose X-Cron-Secret header is absent or
mismatched must get a 403 with no schedule queried or mutated, including when
the server-side CRON_SECRET is unset (fail closed).  The code compares the
header to the environment value with ===, and when both are undefined the
comparison is true: with CRON_SECRET unset and no header the endpoint is
authorized, processing runs, and a due pending schedule is mutated.  This
contradicts the documented fail-closed intent, so it is a bug in the code. -/
theorem cron_secret_unset_fails_open :
    verifySecret none none = true ∧
    (dailyContentGeneration none none 100 (fun _ => none) cronBugDB).fst ≠ CronResponse.unauthorized ∧
    (dailyContentGeneration none none 100 (fun _ => none) cronBugDB).snd.schedules.map Schedule.status = [SStatus.failed] := by
  decide

/-- C2: the processor selects and mutates only pending schedules due at or
before now.  A schedule already completed or failed is left in the store
unchanged and no result entry (hence no generated post) is attributed to it; a
pending schedule due in the future is left unchanged; when nothing is due the
response reports processed equal to 0. -/
theorem processor_touches_only_due_pending (db : DB) (gen : GenRequest → Option PostData)
    (now : Nat) (hids : (db.schedules.map Schedule.id).Nodup) :
    (∀ s ∈ db.schedules, s.status ≠ SStatus.pending →
        s ∈ (processDueSchedules now gen db).snd.schedules ∧
        ∀ r ∈ ((processDueSchedules now gen db).fst).resultList, r.scheduleId ≠ s.id) ∧
    (∀ s ∈ db.schedules, s.status = SStatus.pending → now < s.scheduledFor →
        s ∈ (processDueSchedules now gen db).snd.schedules) ∧
    (dueSchedules db now = [] → (processDueSchedules now gen db).fst = CronResponse.noPending 0) := by
  have hinj : ∀ x ∈ db.schedules, ∀ y ∈ db.schedules, x.id = y.id → x = y := by
    intro x hx y hy hxy
    exact List.inj_on_of_nodup_map hids hx hy hxy
  have hne_due : ∀ s ∈ db.schedules, s ∉ dueSchedules db now →
      ∀ d ∈ dueSchedules db now, s.id ≠ d.id := by
    intro s hs hnot d hd heq
    have hd' := mem_dueSchedules.mp hd
    have : s = d := hinj s hs d hd'.1 heq
    exact hnot (this ▸ hd)
  refine ⟨?_, ?_, ?_⟩
  · intro s hs hstat
    have hnot : s ∉ dueSchedules db now := by
      intro hmem
      exact hstat (mem_dueSchedules.mp hmem).2.1
    have hne := hne_due s hs hnot
    cases hdue : dueSchedules db now with
    | nil =>
      constructor
      · simpa [processDueSchedules, hdue] using hs
      · intro r hr
        simp [processDueSchedules, hdue, CronResponse.resultList] at hr
    | cons d ds =>
      have hne' : ∀ x ∈ (d :: ds), s.id ≠ x.id := by
        rw [← hdue]; exact hne
      constructor
      · have hmem := cronLoop_db_schedules_mem gen (d :: ds) db hs hne'
        simpa [processDueSchedules, hdue] using hmem
      · intro r hr
        have hr' : r ∈ (cronLoop gen db (d :: ds)).results := by
          simpa [processDueSchedules, hdue, CronResponse.resultList] using hr
        rcases cronLoop_results_ids gen (d :: ds) db r hr' with ⟨d', hd', hid⟩
        intro hcontra
        exact hne' d' hd' (hcontra ▸ hid)
  · intro s hs hstat hfuture
    have hnot : s ∉ dueSchedules db now := by
      intro hmem
      have := (mem_dueSchedules.mp hmem).2.2
      omega
    have hne := hne_due s hs hnot
    cases hdue : dueSchedules db now with
    | nil => simpa [processDueSchedules, hdue] using hs
    | cons d ds =>
      have hne' : ∀ x ∈ (d :: ds), s.id ≠ x.id := by
        rw [← hdue]; exact hne
      have hmem := cronLoop_db_schedules_mem gen (d :: ds) db hs hne'
      simpa [processDueSchedules, hdue] using hmem
  · intro hdue
    simp [processDueSchedules, hdue]

/-- Concrete store for the C2 witness: one completed schedule and one pending
schedule that is not yet due at instant 100. -/
def c2DB : DB :=
  { users := []
    categories := []
    topics := []
    posts := []
    comments := []
    schedules := [
      { id := 1, topicId := none, title := "done", description := "d", categoryId := 4,
        authorId := 7, scheduledFor := 10, status := SStatus.completed,
        generatedPostId := some 9, errorMessage := none },
      { id := 2, topicId := none, title := "later", description := "d", categoryId := 4,
        authorId := 7, scheduledFor := 200, status := SStatus.pending,
        generatedPostId := none, errorMessage := none }]
    nextId := 3 }

/-- Witness for C2 at the concrete store c2DB, instant 100 and the always-null
generation oracle. -/
theorem processor_touches_only_due_pending_witness :
    ((c2DB.schedules.map Schedule.id).Nodup) ∧
    ((∀ s ∈ c2DB.schedules, s.status ≠ SStatus.pending →
        s ∈ (processDueSchedules 100 (fun _ => none) c2DB).snd.schedules ∧
        ∀ r ∈ ((processDueSchedules 100 (fun _ => none) c2DB).fst).resultList, r.scheduleId ≠ s.id) ∧
     (∀ s ∈ c2DB.schedules, s.status = SStatus.pending → 100 < s.scheduledFor →
        s ∈ (processDueSchedules 100 (fun _ => none) c2DB).snd.schedules) ∧
     (dueSchedules c2DB 100 = [] →
        (processDueSchedules 100 (fun _ => none) c2DB).fst = CronResponse.noPending 0)) :=
  ⟨by decide, processor_touches_only_due_pending c2DB (fun _ => none) 100 (by decide)⟩

/-- C3: when any step of processing a due schedule fails (author resolution,
category resolution, or the generation service throwing or returning null),
that schedule is marked failed with the captured error text, no post is
created, no topic is mutated, and the loop still produces one result entry per
due schedule, so the remaining due schedules are still processed. -/
theorem failed_schedule_isolated (gen : GenRequest → Option PostData) (db : DB)
    (s : Schedule) (msg : String) (h : attemptSchedule gen db s = Except.error msg) :
    (processSchedule gen db s).fst.posts = db.posts ∧
    (processSchedule gen db s).fst.topics = db.topics ∧
    (processSchedule gen db s).fst.schedules =
      updateScheduleById s.id (fun sc => { sc with status := SStatus.failed, errorMessage := some msg }) db.schedules ∧
    (processSchedule gen db s).snd = ResultEntry.failed s.id msg ∧
    (∀ (db0 : DB) (due : List Schedule), (cronLoop gen db0 due).results.length = due.length) :=
  ⟨by simp [processSchedule, h], by simp [processSchedule, h], by simp [processSchedule, h],
   by simp [processSchedule, h], fun db0 due => cronLoop_results_length gen due db0⟩

/-- The schedule of the C3 witness store. -/
def c3sched : Schedule :=
  { id := 3, topicId := none, title := "t", description := "d", categoryId := 4,
    authorId := 7, scheduledFor := 20, status := SStatus.pending,
    generatedPostId := none, errorMessage := none }

/-- Concrete store for the C3 witness: no users at all, so author resolution
fails for the due schedule. -/
def c3DB : DB :=
  { users := []
    categories := []
    topics := []
    posts := []
    comments := []
    schedules := [c3sched]
    nextId := 5 }

/-- Witness for C3 at the concrete store c3DB, where author resolution throws. -/
theorem failed_schedule_isolated_witness :
    (attemptSchedule (fun _ => none) c3DB c3sched = Except.error "No admin user found to assign as author") ∧
    ((processSchedule (fun _ => none) c3DB c3sched).fst.posts = c3DB.posts ∧
     (processSchedule (fun _ => none) c3DB c3sched).fst.topics = c3DB.topics ∧
     (processSchedule (fun _ => none) c3DB c3sched).fst.schedules =
       updateScheduleById c3sched.id (fun sc => { sc with status := SStatus.failed, errorMessage := some "No admin user found to assign as author" }) c3DB.schedules ∧
     (processSchedule (fun _ => none) c3DB c3sched).snd = ResultEntry.failed c3sched.id "No admin user found to assign as author" ∧
     (∀ (db0 : DB) (due : List Schedule), (cronLoop (fun _ => none) db0 due).results.length = due.length)) :=
  ⟨rfl, failed_schedule_isolated (fun _ => none) c3DB c3sched "No admin user found to assign as author" rfl⟩

/-- C4: when generation succeeds for a due schedule, a new post is appended
whose fields come from the generation result with the resolved author, the
resolved category of the schedule, and the generated flag set; the schedule is
marked completed with generatedPostId the new post id; a linked topic is
marked generated; and every summary response satisfies processed = number of
due schedules, processed = success + failure, and one result entry per
schedule. -/
theorem successful_schedule_creates_post (gen : GenRequest → Option PostData) (db : DB)
    (s : Schedule) (r : GenSuccess) (h : attemptSchedule gen db s = Except.ok r) :
    (processSchedule gen db s).fst.posts =
      db.posts ++ [mkPost db.nextId r.postData r.authorId r.categoryId] ∧
    mkPost db.nextId r.postData r.authorId r.categoryId =
      { id := db.nextId, title := r.postData.title, slug := r.postData.slug,
        excerpt := r.postData.excerpt, content := r.postData.content,
        coverImage := r.postData.coverImage, publishedAt := r.postData.publishedAt,
        readingTime := r.postData.readingTime, authorId := r.authorId,
        categoryId := r.categoryId, isGenerated := true,
        relatedAssets := r.postData.relatedAssets, tags := r.postData.tags } ∧
    resolveAuthor db s = Except.ok r.authorId ∧
    (∃ c ∈ db.categories, c.id = s.categoryId ∧ r.categoryId = c.id) ∧
    (processSchedule gen db s).fst.schedules =
      updateScheduleById s.id (fun sc => { sc with status := SStatus.completed, generatedPostId := some db.nextId }) db.schedules ∧
    (processSchedule gen db s).fst.topics = (match s.topicId with
      | some tid => updateTopicById tid (fun t => { t with status := TopicStatus.generated }) db.topics
      | none => db.topics) ∧
    (processSchedule gen db s).snd = ResultEntry.success s.id db.nextId r.postData.title ∧
    (∀ (db0 : DB) (now p sc fc : Nat) (rs : List ResultEntry),
        (processDueSchedules now gen db0).fst = CronResponse.summary p sc fc rs →
        p = (dueSchedules db0 now).length ∧ sc + fc = p ∧ rs.length = p) := by
  have hparts : resolveAuthor db s = Except.ok r.authorId ∧
      ∃ c ∈ db.categories, c.id = s.categoryId ∧ r.categoryId = c.id := by
    unfold attemptSchedule at h
    cases hra : resolveAuthor db s with
    | error e => rw [hra] at h; simp at h
    | ok a =>
      rw [hra] at h
      cases hfc : db.categories.find? (fun c => c.id == s.categoryId) with
      | none => rw [hfc] at h; simp at h
      | some c =>
        rw [hfc] at h
        simp at h
        cases hg : gen (GenRequest.mk s.title (promptTemplateFor s) c.id [] a) with
        | none => rw [hg] at h; simp at h
        | some pd =>
          rw [hg] at h
          simp at h
          have hcid : c.id = s.categoryId := by
            have := List.find?_some hfc
            simpa using this
          have hcmem : c ∈ db.categories := List.mem_of_find?_eq_some hfc
          subst h
          exact ⟨rfl, c, hcmem, hcid, rfl⟩
  refine ⟨?_, ?_, hparts.1, hparts.2, ?_, ?_, ?_, ?_⟩
  · cases ht : s.topicId <;> simp [processSchedule, h, ht]
  · simp [mkPost]
  · cases ht : s.topicId <;> simp [processSchedule, h, ht, mkPost]
  · cases ht : s.topicId <;> simp [processSchedule, h, ht]
  · cases ht : s.topicId <;> simp [processSchedule, h, ht, mkPost]
  · intro db0 now p sc fc rs hsum
    cases hdue : dueSchedules db0 now with
    | nil => simp [processDueSchedules, hdue] at hsum
    | cons d ds =>
      simp [processDueSchedules, hdue] at hsum
      have hcnt := cronLoop_counts gen (d :: ds) db0
      have hlen := cronLoop_results_length gen (d :: ds) db0
      rcases hsum with ⟨hp, hsc, hfc2, hrs⟩
      subst p
      subst sc
      subst fc
      subst rs
      refine ⟨by simp [hdue], ?_, by simp [hlen, hdue]⟩
      simp only [List.length_cons] at hcnt ⊢
      omega

/-- A concrete admin user shared by several witnesses. -/
def adminUser : User := { id := 3, isAdmin := true }

/-- Concrete generation result for the C4 witness. -/
def pd0 : PostData :=
  { title := "Generated title", slug := "generated-title", excerpt := "e", content := "c",
    coverImage := "img", publishedAt := 99, readingTime := 3, relatedAssets := [], tags := ["crypto"] }

/-- The due schedule of the C4 witness store, linked to topic 21. -/
def c4sched : Schedule :=
  { id := 11, topicId := some 21, title := "BTC", description := "d", categoryId := 4,
    authorId := 7, scheduledFor := 20, status := SStatus.pending,
    generatedPostId := none, errorMessage := none }

/-- Concrete store for the C4 witness. -/
def c4DB : DB :=
  { users := [{ id := 7, isAdmin := true }]
    categories := [{ id := 4, name := "Crypto", slug := "crypto" }]
    topics := [{ id := 21, title := "BTC", description := "d", categoryId := 4,
                 status := TopicStatus.approved, scheduledFor := some 20 }]
    posts := []
    comments := []
    schedules := [c4sched]
    nextId := 30 }

/-- The successful attempt outcome of the C4 witness. -/
def c4gs : GenSuccess := { authorId := 7, categoryId := 4, postData := pd0 }

/-- Witness for C4 at the concrete store c4DB with an always-succeeding
generation oracle. -/
theorem successful_schedule_creates_post_witness :
    (attemptSchedule (fun _ => some pd0) c4DB c4sched = Except.ok c4gs) ∧
    ((processSchedule (fun _ => some pd0) c4DB c4sched).fst.posts =
       c4DB.posts ++ [mkPost c4DB.nextId c4gs.postData c4gs.authorId c4gs.categoryId] ∧
     mkPost c4DB.nextId c4gs.postData c4gs.authorId c4gs.categoryId =
       { id := c4DB.nextId, title := c4gs.postData.title, slug := c4gs.postData.slug,
         excerpt := c4gs.postData.excerpt, content := c4gs.postData.content,
         coverImage := c4gs.postData.coverImage, publishedAt := c4gs.postData.publishedAt,
         readingTime := c4gs.postData.readingTime, authorId := c4gs.authorId,
         categoryId := c4gs.categoryId, isGenerated := true,
         relatedAssets := c4gs.postData.relatedAssets, tags := c4gs.postData.tags } ∧
     resolveAuthor c4DB c4sched = Except.ok c4gs.authorId ∧
     (∃ c ∈ c4DB.categories, c.id = c4sched.categoryId ∧ c4gs.categoryId = c.id) ∧
     (processSchedule (fun _ => some pd0) c4DB c4sched).fst.schedules =
       updateScheduleById c4sched.id (fun sc => { sc with status := SStatus.completed, generatedPostId := some c4DB.nextId }) c4DB.schedules ∧
     ((processSchedule (fun _ => some pd0) c4DB c4sched).fst.topics = (match c4sched.topicId with
       | some tid => updateTopicById tid (fun t => { t with status := TopicStatus.generated }) c4DB.topics
       | none => c4DB.topics)) ∧
     (processSchedule (fun _ => some pd0) c4DB c4sched).snd = ResultEntry.success c4sched.id c4DB.nextId c4gs.postData.title ∧
     (∀ (db0 : DB) (now p sc fc : Nat) (rs : List ResultEntry),
        (processDueSchedules now (fun _ => some pd0) db0).fst = CronResponse.summary p sc fc rs →
        p = (dueSchedules db0 now).length ∧ sc + fc = p ∧ rs.length = p)) :=
  ⟨rfl, successful_schedule_creates_post (fun _ => some pd0) c4DB c4sched c4gs rfl⟩

/-- The category of the C5 stores. -/
def c5cat : Category := { id := 1, name := "Crypto", slug := "crypto" }

/-- Concrete store for C5: one category, no schedules yet. -/
def c5DB : DB :=
  { users := []
    categories := [c5cat]
    topics := []
    posts := []
    comments := []
    schedules := []
    nextId := 10 }

/-- A scheduleGeneration request whose scheduledFor parses to exactly the
present instant 100. -/
def c5req : SchedRequest :=
  { topicId := none, title := some "BTC Outlook", description := some "desc",
    categoryId := some 1, scheduledFor := some 100 }

/-- The schedule that scheduleGeneration creates from c5req. -/
def c5expected : Schedule :=
  { id := 10, topicId := none, title := "BTC Outlook", description := "desc",
    categoryId := 1, authorId := 3, scheduledFor := 100, status := SStatus.pending,
    generatedPostId := none, errorMessage := none }

/-- C5 counterexample: the claim says every scheduledFor that is not strictly
in the future, in particular the present instant, fails validation with no
schedule created.  The code rejects only dates strictly before now, so a
request whose scheduledFor equals the current instant succeeds and a schedule
is created. -/
theorem schedule_at_present_instant_accepted :
    (scheduleGeneration (some adminUser) c5req 100 c5DB).fst = SchedResponse.created c5expected ∧
    (scheduleGeneration (some adminUser) c5req 100 c5DB).snd.schedules = [c5expected] := by
  decide

/-- C5 amended: for an admin request whose category resolves, a scheduledFor
that fails to parse or parses to a date strictly before now yields a
validation error and leaves the store unchanged (a date at or after now
passes the check). -/
theorem schedule_rejects_past_or_unparseable (user : User) (req : SchedRequest) (now : Nat)
    (db : DB) (cid : Nat) (c : Category)
    (hadmin : user.isAdmin = true)
    (hcid : req.categoryId = some cid)
    (hc : db.categories.find? (fun x => x.id == cid) = some c)
    (hdate : req.scheduledFor = none ∨ ∃ t, req.scheduledFor = some t ∧ t < now) :
    ((scheduleGeneration (some user) req now db).fst = SchedResponse.invalidDateFormat ∨
     (scheduleGeneration (some user) req now db).fst = SchedResponse.dateNotFuture) ∧
    (scheduleGeneration (some user) req now db).snd = db := by
  rcases hdate with hnone | ⟨t, ht, hlt⟩
  · constructor
    · left
      simp [scheduleGeneration, hadmin, hcid, hc, hnone]
    · simp [scheduleGeneration, hadmin, hcid, hc, hnone]
  · constructor
    · right
      simp [scheduleGeneration, hadmin, hcid, hc, ht, hlt]
    · simp [scheduleGeneration, hadmin, hcid, hc, ht, hlt]

/-- A scheduleGeneration request whose scheduledFor parses to instant 50,
strictly before the witness instant 100. -/
def c5wreq : SchedRequest :=
  { topicId := none, title := none, description := none,
    categoryId := some 1, scheduledFor := some 50 }

/-- Witness for the amended C5 at a concrete past-dated request. -/
theorem schedule_rejects_past_or_unparseable_witness :
    (adminUser.isAdmin = true) ∧
    (c5wreq.categoryId = some 1) ∧
    (c5DB.categories.find? (fun x => x.id == 1) = some c5cat) ∧
    (c5wreq.scheduledFor = none ∨ ∃ t, c5wreq.scheduledFor = some t ∧ t < 100) ∧
    (((scheduleGeneration (some adminUser) c5wreq 100 c5DB).fst = SchedResponse.invalidDateFormat ∨
      (scheduleGeneration (some adminUser) c5wreq 100 c5DB).fst = SchedResponse.dateNotFuture) ∧
     (scheduleGeneration (some adminUser) c5wreq 100 c5DB).snd = c5DB) :=
  ⟨rfl, rfl, rfl, Or.inr ⟨50, rfl, by omega⟩,
   schedule_rejects_past_or_unparseable adminUser c5wreq 100 c5DB 1 c5cat rfl rfl rfl
     (Or.inr ⟨50, rfl, by omega⟩)⟩

/-- C6: cancelScheduledGeneration succeeds only on a pending schedule, deleting
it and resetting a linked topic to pending with its scheduledFor cleared; on a
completed or failed schedule it fails and leaves the whole store unchanged. -/
theorem cancel_only_pending_schedules (user : User) (i : Nat) (db : DB) (s : Schedule)
    (hadmin : user.isAdmin = true)
    (hfind : db.schedules.find? (fun x => x.id == i) = some s) :
    (s.status = SStatus.pending →
        (cancelScheduledGeneration (some user) (some i) db).fst = CancelResponse.cancelled ∧
        (cancelScheduledGeneration (some user) (some i) db).snd.schedules =
          db.schedules.filter (fun x => decide (x.id ≠ s.id)) ∧
        ((cancelScheduledGeneration (some user) (some i) db).snd.topics = (match s.topicId with
          | some tid => updateTopicById tid (fun t => { t with status := TopicStatus.pending, scheduledFor := none }) db.topics
          | none => db.topics))) ∧
    (s.status ≠ SStatus.pending →
        (cancelScheduledGeneration (some user) (some i) db).fst = CancelResponse.notPending ∧
        (cancelScheduledGeneration (some user) (some i) db).snd = db) := by
  constructor
  · intro hp
    refine ⟨?_, ?_, ?_⟩ <;>
      cases ht : s.topicId <;>
        simp [cancelScheduledGeneration, hadmin, hfind, hp, ht]
  · intro hnp
    constructor <;> simp [cancelScheduledGeneration, hadmin, hfind, hnp]

/-- The pending schedule of the C6 witness, linked to topic 2. -/
def c6sched : Schedule :=
  { id := 8, topicId := some 2, title := "t", description := "d", categoryId := 1,
    authorId := 3, scheduledFor := 100, status := SStatus.pending,
    generatedPostId := none, errorMessage := none }

/-- Concrete store for the C6 witness. -/
def c6DB : DB :=
  { users := [adminUser]
    categories := [c5cat]
    topics := [{ id := 2, title := "tt", description := "dd", categoryId := 1,
                 status := TopicStatus.approved, scheduledFor := some 100 }]
    posts := []
    comments := []
    schedules := [c6sched]
    nextId := 20 }

/-- Witness for C6 at a concrete pending schedule with a linked topic. -/
theorem cancel_only_pending_schedules_witness :
    (adminUser.isAdmin = true) ∧
    (c6DB.schedules.find? (fun x => x.id == 8) = some c6sched) ∧
    ((c6sched.status = SStatus.pending →
        (cancelScheduledGeneration (some adminUser) (some 8) c6DB).fst = CancelResponse.cancelled ∧
        (cancelScheduledGeneration (some adminUser) (some 8) c6DB).snd.schedules =
          c6DB.schedules.filter (fun x => decide (x.id ≠ c6sched.id)) ∧
        ((cancelScheduledGeneration (some adminUser) (some 8) c6DB).snd.topics = (match c6sched.topicId with
          | some tid => updateTopicById tid (fun t => { t with status := TopicStatus.pending, scheduledFor := none }) c6DB.topics
          | none => c6DB.topics))) ∧
     (c6sched.status ≠ SStatus.pending →
        (cancelScheduledGeneration (some adminUser) (some 8) c6DB).fst = CancelResponse.notPending ∧
        (cancelScheduledGeneration (some adminUser) (some 8) c6DB).snd = c6DB)) :=
  ⟨rfl, rfl, cancel_only_pending_schedules adminUser 8 c6DB c6sched rfl rfl⟩

/-- C7: deleteCategory is refused with the store unchanged while any post
references the category, and can report success only when no post references
it. -/
theorem delete_category_blocked_while_referenced (user : User) (i : Nat) (db : DB)
    (c : Category)
    (hfind : db.categories.find? (fun x => x.id == i) = some c) :
    ((∃ p ∈ db.posts, p.categoryId = c.id) →
        (deleteCategory (some user) (some i) db).fst =
          DeleteCategoryResponse.inUse ((db.posts.filter (fun p => p.categoryId == c.id)).length) ∧
        (deleteCategory (some user) (some i) db).snd = db) ∧
    ((deleteCategory (some user) (some i) db).fst = DeleteCategoryResponse.removed →
        ∀ p ∈ db.posts, p.categoryId ≠ c.id) := by
  have hcount : (∃ p ∈ db.posts, p.categoryId = c.id) ↔
      0 < (db.posts.filter (fun p => p.categoryId == c.id)).length := by
    rw [List.length_pos]
    constructor
    · rintro ⟨p, hp, hpc⟩ hnil
      have hmem : p ∈ db.posts.filter (fun p => p.categoryId == c.id) :=
        List.mem_filter.mpr ⟨hp, by simp [hpc]⟩
      simp [hnil] at hmem
    · intro hne
      rcases List.exists_mem_of_ne_nil _ hne with ⟨p, hp⟩
      have hmem := List.mem_filter.mp hp
      exact ⟨p, hmem.1, by simpa using hmem.2⟩
  constructor
  · intro hex
    have hpos := hcount.mp hex
    constructor <;> simp [deleteCategory, hfind, hpos]
  · intro hrem p hp hpc
    have hpos := hcount.mp ⟨p, hp, hpc⟩
    simp [deleteCategory, hfind, hpos] at hrem

/-- The referenced category of the C7 witness. -/
def c7cat : Category := { id := 6, name := "Markets", slug := "markets" }

/-- A post referencing category 6 in the C7 witness store. -/
def c7post : Post :=
  { id := 2, title := "p", slug := "p", excerpt := "", content := "", coverImage := "",
    publishedAt := 0, readingTime := 1, authorId := 3, categoryId := 6,
    isGenerated := false, relatedAssets := [], tags := [] }

/-- Concrete store for the C7 witness. -/
def c7DB : DB :=
  { users := [adminUser]
    categories := [c7cat]
    topics := []
    posts := [c7post]
    comments := []
    schedules := []
    nextId := 40 }

/-- Witness for C7 at a concrete referenced category. -/
theorem delete_category_blocked_while_referenced_witness :
    (c7DB.categories.find? (fun x => x.id == 6) = some c7cat) ∧
    (((∃ p ∈ c7DB.posts, p.categoryId = c7cat.id) →
        (deleteCategory (some adminUser) (some 6) c7DB).fst =
          DeleteCategoryResponse.inUse ((c7DB.posts.filter (fun p => p.categoryId == c7cat.id)).length) ∧
        (deleteCategory (some adminUser) (some 6) c7DB).snd = c7DB) ∧
     ((deleteCategory (some adminUser) (some 6) c7DB).fst = DeleteCategoryResponse.removed →
        ∀ p ∈ c7DB.posts, p.categoryId ≠ c7cat.id)) :=
  ⟨rfl, delete_category_blocked_while_referenced adminUser 6 c7DB c7cat rfl⟩

lemma createComment_created_isApproved (user : Option User) (postId : Option Nat)
    (req : CommentRequest) (now : Nat) (db : DB) (c : Comment) (db' : DB)
    (hc : createComment user postId req now db = (CreateCommentResponse.created c, db')) :
    c.isApproved = isAdminPrincipal user := by
  cases postId with
  | none => simp [createComment] at hc
  | some pid =>
    cases hfp : db.posts.find? (fun p => p.id == pid) with
    | none => simp [createComment, hfp] at hc
    | some post =>
      cases hrp : req.parentId with
      | none =>
        have h1 := congrArg Prod.fst hc
        simp [createComment, hfp, hrp, insertComment] at h1
        subst h1
        rfl
      | some op =>
        cases op with
        | none => simp [createComment, hfp, hrp] at hc
        | some pidp =>
          cases hpc : db.comments.find? (fun x => x.id == pidp) with
          | none => simp [createComment, hfp, hrp, hpc] at hc
          | some parentComment =>
            by_cases hpp : parentComment.postId = post.id
            · have h1 := congrArg Prod.fst hc
              simp [createComment, hfp, hrp, hpc, hpp, insertComment] at h1
              subst h1
              rfl
            · simp [createComment, hfp, hrp, hpc, hpp] at hc

/-- C8: a created comment is approved exactly when the submitting principal is
an authenticated admin, and the public read of a post returns exactly the
approved top-level comments of the post, each annotated with exactly its
approved direct replies; unapproved comments appear nowhere. -/
theorem comment_approval_and_public_visibility (user : Option User) (pid : Nat)
    (req : CommentRequest) (now : Nat) (db : DB) (c : Comment) (db' : DB)
    (pid2 : Nat) (db2 : DB) (out : List CommentWithReplies)
    (hc : createComment user (some pid) req now db = (CreateCommentResponse.created c, db'))
    (hg : getCommentsByPost (some pid2) db2 = GetCommentsResponse.ok out) :
    c.isApproved = isAdminPrincipal user ∧
    (∀ t : Comment, (∃ e ∈ out, e.comment = t) ↔
        (t ∈ db2.comments ∧ t.postId = pid2 ∧ t.isApproved = true ∧ t.parentId = none)) ∧
    (∀ e ∈ out, ∀ r : Comment, r ∈ e.replies ↔
        (r ∈ db2.comments ∧ r.postId = pid2 ∧ r.parentId = some e.comment.id ∧ r.isApproved = true)) := by
  have hout : out = (sortBy (fun a b => decide (b.createdAt ≤ a.createdAt)) (db2.comments.filter (fun c0 => c0.postId == pid2 && c0.isApproved && decide (c0.parentId = none)))).map (fun comment => { comment := comment, replies := sortBy (fun a b => decide (a.createdAt ≤ b.createdAt)) (db2.comments.filter (fun r => r.postId == pid2 && decide (r.parentId = some comment.id) && r.isApproved)) }) := by
    cases hfp : db2.posts.find? (fun p => p.id == pid2) with
    | none => simp [getCommentsByPost, hfp] at hg
    | some post2 =>
      simp [getCommentsByPost, hfp] at hg
      exact hg.symm
  subst hout
  refine ⟨createComment_created_isApproved user (some pid) req now db c db' hc, ?_, ?_⟩
  · intro t
    constructor
    · rintro ⟨e, he, hte⟩
      rcases List.mem_map.mp he with ⟨a, ha, rfl⟩
      rcases (List.mem_filter.mp ((mem_sortBy _ a _).mp ha)) with ⟨hmem, hcond⟩
      simp at hcond
      subst hte
      exact ⟨hmem, hcond.1.1, hcond.1.2, hcond.2⟩
    · rintro ⟨hmem, hpost, happ, hpar⟩
      refine ⟨_, List.mem_map_of_mem _ ?_, rfl⟩
      exact (mem_sortBy _ t _).mpr (List.mem_filter.mpr ⟨hmem, by simp [hpost, happ, hpar]⟩)
  · intro e he r
    rcases List.mem_map.mp he with ⟨a, ha, rfl⟩
    constructor
    · intro hr
      rcases List.mem_filter.mp ((mem_sortBy _ r _).mp hr) with ⟨hmem, hcond⟩
      simp at hcond
      exact ⟨hmem, hcond.1.1, hcond.1.2, hcond.2⟩
    · rintro ⟨hmem, hpost, hpar, happ⟩
      exact (mem_sortBy _ r _).mpr (List.mem_filter.mpr ⟨hmem, by simp [hpost, hpar, happ]⟩)

/-- The blog post that the comment witnesses attach comments to. -/
def post1 : Post :=
  { id := 1, title := "p", slug := "p", excerpt := "", content := "", coverImage := "",
    publishedAt := 0, readingTime := 1, authorId := 3, categoryId := 1,
    isGenerated := false, relatedAssets := [], tags := [] }

/-- The create request of the C8 witness. -/
def c8req : CommentRequest :=
  { content := "nice post", authorName := "ann", authorEmail := "ann@x", parentId := none }

/-- Store into which the C8 witness creates a comment. -/
def c8DB : DB :=
  { users := [adminUser]
    categories := []
    topics := []
    posts := [post1]
    comments := []
    schedules := []
    nextId := 60 }

/-- The comment the C8 witness creation produces. -/
def c8comment : Comment :=
  { id := 60, content := "nice post", postId := 1, parentId := none,
    authorName := "ann", authorEmail := "ann@x", isApproved := true,
    userId := some 3, createdAt := 5 }

/-- The store state after the C8 witness creation. -/
def c8DBafter : DB := (createComment (some adminUser) (some 1) c8req 5 c8DB).snd

/-- Store read by the C8 witness: one approved and one unapproved top-level
comment, plus one approved and one unapproved reply under the approved one. -/
def c8DB2 : DB :=
  { users := [adminUser]
    categories := []
    topics := []
    posts := [post1]
    comments := [
      { id := 50, content := "approved top", postId := 1, parentId := none,
        authorName := "a", authorEmail := "a@x", isApproved := true, userId := none, createdAt := 1 },
      { id := 51, content := "pending top", postId := 1, parentId := none,
        authorName := "b", authorEmail := "b@x", isApproved := false, userId := none, createdAt := 2 },
      { id := 52, content := "approved reply", postId := 1, parentId := some 50,
        authorName := "c", authorEmail := "c@x", isApproved := true, userId := none, createdAt := 3 },
      { id := 53, content := "pending reply", postId := 1, parentId := some 50,
        authorName := "d", authorEmail := "d@x", isApproved := false, userId := none, createdAt := 4 }]
    schedules := []
    nextId := 70 }

/-- The payload getCommentsByPost returns on c8DB2. -/
def c8out : List CommentWithReplies :=
  [{ comment := { id := 50, content := "approved top", postId := 1, parentId := none,
                  authorName := "a", authorEmail := "a@x", isApproved := true, userId := none, createdAt := 1 }
     replies := [{ id := 52, content := "approved reply", postId := 1, parentId := some 50,
                   authorName := "c", authorEmail := "c@x", isApproved := true, userId := none, createdAt := 3 }] }]

/-- Witness for C8: an admin-created comment is approved, and the public read
of c8DB2 surfaces exactly the approved top-level comment with exactly its
approved reply. -/
theorem comment_approval_and_public_visibility_witness :
    (createComment (some adminUser) (some 1) c8req 5 c8DB = (CreateCommentResponse.created c8comment, c8DBafter)) ∧
    (getCommentsByPost (some 1) c8DB2 = GetCommentsResponse.ok c8out) ∧
    (c8comment.isApproved = isAdminPrincipal (some adminUser) ∧
     (∀ t : Comment, (∃ e ∈ c8out, e.comment = t) ↔
        (t ∈ c8DB2.comments ∧ t.postId = 1 ∧ t.isApproved = true ∧ t.parentId = none)) ∧
     (∀ e ∈ c8out, ∀ r : Comment, r ∈ e.replies ↔
        (r ∈ c8DB2.comments ∧ r.postId = 1 ∧ r.parentId = some e.comment.id ∧ r.isApproved = true))) :=
  ⟨rfl, rfl,
   comment_approval_and_public_visibility (some adminUser) 1 c8req 5 c8DB c8comment c8DBafter
     1 c8DB2 c8out rfl rfl⟩

/-- C9: deleteComment on a top-level comment removes it together with every
comment whose parentId is its id, while deleteComment on a reply removes only
that reply; every other comment stays in the store in either case. -/
theorem delete_comment_cascade_semantics (user : User) (i : Nat) (db : DB) (c : Comment)
    (hadmin : user.isAdmin = true)
    (hfind : db.comments.find? (fun x => x.id == i) = some c) :
    (deleteComment (some user) (some i) db).fst = DeleteCommentResponse.removed ∧
    (c.parentId = none →
        ∀ x : Comment, x ∈ (deleteComment (some user) (some i) db).snd.comments ↔
          (x ∈ db.comments ∧ x.id ≠ c.id ∧ x.parentId ≠ some c.id)) ∧
    (∀ p : Nat, c.parentId = some p →
        ∀ x : Comment, x ∈ (deleteComment (some user) (some i) db).snd.comments ↔
          (x ∈ db.comments ∧ x.id ≠ c.id)) := by
  refine ⟨?_, ?_, ?_⟩
  · cases hpar : c.parentId <;> simp [deleteComment, hadmin, hfind, hpar]
  · intro hpar x
    simp [deleteComment, hadmin, hfind, hpar, List.mem_filter, and_assoc]
    tauto
  · intro p hpar x
    simp [deleteComment, hadmin, hfind, hpar, List.mem_filter]

/-- The top-level comment of the C9 witness. -/
def c9top : Comment :=
  { id := 80, content := "top", postId := 1, parentId := none,
    authorName := "a", authorEmail := "a@x", isApproved := true, userId := none, createdAt := 1 }

/-- Concrete store for the C9 witness: a top-level comment with two replies
plus one unrelated comment. -/
def c9DB : DB :=
  { users := [adminUser]
    categories := []
    topics := []
    posts := [post1]
    comments := [
      c9top,
      { id := 81, content := "r1", postId := 1, parentId := some 80,
        authorName := "b", authorEmail := "b@x", isApproved := true, userId := none, createdAt := 2 },
      { id := 82, content := "r2", postId := 1, parentId := some 80,
        authorName := "c", authorEmail := "c@x", isApproved := true, userId := none, createdAt := 3 },
      { id := 83, content := "other", postId := 1, parentId := none,
        authorName := "d", authorEmail := "d@x", isApproved := true, userId := none, createdAt := 4 }]
    schedules := []
    nextId := 90 }

/-- Witness for C9 at the concrete store c9DB, deleting the top-level comment
80 that has two replies. -/
theorem delete_comment_cascade_semantics_witness :
    (adminUser.isAdmin = true) ∧
    (c9DB.comments.find? (fun x => x.id == 80) = some c9top) ∧
    ((deleteComment (some adminUser) (some 80) c9DB).fst = DeleteCommentResponse.removed ∧
     (c9top.parentId = none →
        ∀ x : Comment, x ∈ (deleteComment (some adminUser) (some 80) c9DB).snd.comments ↔
          (x ∈ c9DB.comments ∧ x.id ≠ c9top.id ∧ x.parentId ≠ some c9top.id)) ∧
     (∀ p : Nat, c9top.parentId = some p →
        ∀ x : Comment, x ∈ (deleteComment (some adminUser) (some 80) c9DB).snd.comments ↔
          (x ∈ c9DB.comments ∧ x.id ≠ c9top.id))) :=
  ⟨rfl, rfl, delete_comment_cascade_semantics adminUser 80 c9DB c9top rfl rfl⟩

/-- The top-level comment of the C10 stores. -/
def c10top : Comment :=
  { id := 10, content := "top", postId := 1, parentId := none,
    authorName := "a", authorEmail := "a@x", isApproved := true, userId := none, createdAt := 1 }

/-- The approved reply under c10top. -/
def c10reply : Comment :=
  { id := 11, content := "reply", postId := 1, parentId := some 10,
    authorName := "b", authorEmail := "b@x", isApproved := true, userId := none, createdAt := 2 }

/-- Concrete store for C10 before the reply-to-reply is created. -/
def c10DB : DB :=
  { users := [adminUser]
    categories := []
    topics := []
    posts := [post1]
    comments := [c10top, c10reply]
    schedules := []
    nextId := 12 }

/-- The C10 create request: a comment whose parentId refers to the reply 11. -/
def c10req : CommentRequest :=
  { content := "reply to reply", authorName := "c", authorEmail := "c@x",
    parentId := some (some 11) }

/-- The comment the C10 creation produces: its parentId is stored as the reply
id 11, not flattened to the top-level id 10. -/
def c10new : Comment :=
  { id := 12, content := "reply to reply", postId := 1, parentId := some 11,
    authorName := "c", authorEmail := "c@x", isApproved := true, userId := some 3, createdAt := 9 }

/-- C10 counterexample: the claim says a comment created under a reply is
flattened in queries and still surfaced under the corresponding top-level
parent.  On the code the comment is stored with parentId the reply id and the
public read then returns only the top-level comment with its direct reply: the
new approved comment appears nowhere in the payload. -/
theorem reply_to_reply_hidden_cx :
    (createComment (some adminUser) (some 1) c10req 9 c10DB).fst = CreateCommentResponse.created c10new ∧
    c10new.isApproved = true ∧
    getCommentsByPost (some 1) (createComment (some adminUser) (some 1) c10req 9 c10DB).snd =
      GetCommentsResponse.ok [{ comment := c10top, replies := [c10reply] }] ∧
    c10top ≠ c10new ∧ c10new ∉ [c10reply] := by
  decide

/-- C10 amended: a comment whose parentId refers to a comment that is itself a
reply is stored with that parentId unchanged and is never surfaced by
getCommentsByPost: it is not a top-level entry and it is not in any top-level
entry's replies list. -/
theorem reply_to_reply_never_surfaced (pid : Nat) (db : DB) (out : List CommentWithReplies)
    (c r : Comment)
    (hids : (db.comments.map Comment.id).Nodup)
    (_hcmem : c ∈ db.comments) (hcp : c.parentId = some r.id)
    (hrmem : r ∈ db.comments) (hrp : r.parentId ≠ none)
    (hg : getCommentsByPost (some pid) db = GetCommentsResponse.ok out) :
    (∀ e ∈ out, e.comment ≠ c) ∧ (∀ e ∈ out, c ∉ e.replies) := by
  have hout : out = (sortBy (fun a b => decide (b.createdAt ≤ a.createdAt)) (db.comments.filter (fun c0 => c0.postId == pid && c0.isApproved && decide (c0.parentId = none)))).map (fun comment => { comment := comment, replies := sortBy (fun a b => decide (a.createdAt ≤ b.createdAt)) (db.comments.filter (fun r0 => r0.postId == pid && decide (r0.parentId = some comment.id) && r0.isApproved)) }) := by
    cases hfp : db.posts.find? (fun p => p.id == pid) with
    | none => simp [getCommentsByPost, hfp] at hg
    | some post0 =>
      simp [getCommentsByPost, hfp] at hg
      exact hg.symm
  subst hout
  constructor
  · intro e he heq
    rcases List.mem_map.mp he with ⟨a, ha, rfl⟩
    rcases List.mem_filter.mp ((mem_sortBy _ a _).mp ha) with ⟨_, hcond⟩
    simp at hcond
    have : c.parentId = none := by
      have hac : a = c := heq
      rw [← hac]
      exact hcond.2
    rw [hcp] at this
    simp at this
  · intro e he hmem
    rcases List.mem_map.mp he with ⟨a, ha, rfl⟩
    rcases List.mem_filter.mp ((mem_sortBy _ a _).mp ha) with ⟨hamem, hacond⟩
    simp at hacond
    rcases List.mem_filter.mp ((mem_sortBy _ c _).mp hmem) with ⟨_, hccond⟩
    simp at hccond
    have hid : r.id = a.id := by
      have := hccond.1.2
      rw [hcp] at this
      simpa using this
    have har : a = r := List.inj_on_of_nodup_map hids hamem hrmem hid.symm
    rw [har] at hacond
    exact hrp hacond.2

/-- The store after the C10 creation, read back by the witness. -/
def c10DBafter : DB := (createComment (some adminUser) (some 1) c10req 9 c10DB).snd

/-- The payload getCommentsByPost returns on c10DBafter. -/
def c10out : List CommentWithReplies := [{ comment := c10top, replies := [c10reply] }]

/-- Witness for the amended C10 at the concrete store c10DBafter. -/
theorem reply_to_reply_never_surfaced_witness :
    ((c10DBafter.comments.map Comment.id).Nodup) ∧
    (c10new ∈ c10DBafter.comments) ∧
    (c10new.parentId = some c10reply.id) ∧
    (c10reply ∈ c10DBafter.comments) ∧
    (c10reply.parentId ≠ none) ∧
    (getCommentsByPost (some 1) c10DBafter = GetCommentsResponse.ok c10out) ∧
    ((∀ e ∈ c10out, e.comment ≠ c10new) ∧ (∀ e ∈ c10out, c10new ∉ e.replies)) :=
  ⟨by decide, by decide, by decide, by decide, by decide, by decide,
   reply_to_reply_never_surfaced 1 c10DBafter c10out c10new c10reply
     (by decide) (by decide) (by decide) (by decide) (by decide) (by decide)⟩

end FinanceBlog
